import Mathlib

/-!
# Verification of the gopherjs/websocket blocking-stream adapter

This file shallowly embeds the core of the `gopherjs/websocket` repository:

* `websocketjs.go` — the low-level wrapper around the host `WebSocket`
  object (`New`, `Send`, `Close`), each of which guards the host call with
  a `recover` block that converts a raised `*js.Error` into the returned
  error and re-raises any other panic;
* `conn.go` — the blocking-stream adapter: `Dial`, the
  `bufferMessageEvents` FIFO pump, `handleFrame`, `receiveFrame` (with
  read-deadline handling), `conn.Read` (with the `bytes.Reader` carry-over
  buffer), `conn.Write`, `conn.onClose` (compare-and-swap close guard).

Bytes are modelled as `Nat`, frame payloads as `List Nat`, Go `error`
values as an inductive `GoError`, panics as the `Except.error` branch of
an `Except`, and blocking as returning `none` from an `Option`-valued
step function.  Host-side nondeterminism (which `select` case fires, what
the host raises) is passed in explicitly as parameters.
-/

namespace GopherjsWebsocket

/-- ReadyState from `websocketjs.go`: the four lifecycle states of the
host transport (`Connecting`, `Open`, `Closing`, `Closed`). -/
inductive ReadyState
  | connecting
  | opened
  | closing
  | closed
deriving DecidableEq, Repr

/-- Outcome of a synchronous host (JavaScript) call as seen from Go:
the call returns normally, raises a `*js.Error` (the recognized
transport-related fault, carrying a message), or raises any other panic
value. -/
inductive HostOutcome
  | ok
  | jsException (msg : String)
  | otherPanic (msg : String)
deriving DecidableEq, Repr

/-- `websocketjs.New` (websocketjs.go lines 70-91): invokes the host
`WebSocket` constructor inside a `defer`/`recover` guard.  Result models
the Go pair `(ws, err)` as `(Option Unit × Option String)` (the handle is
`nil` exactly when an error is returned); a non-`*js.Error` panic
propagates, modelled by `Except.error`. -/
def websocketjs.New (host : HostOutcome) : Except String (Option Unit × Option String) :=
  match host with
  | .ok => .ok (some (), none)
  | .jsException m => .ok (none, some m)
  | .otherPanic m => .error m

/-- `WebSocket.Send` (websocketjs.go lines 167-183): hands the payload to
the host `send` call inside the same `recover` guard; a `*js.Error`
becomes the returned error, any other panic propagates. -/
def websocketjs.Send (host : HostOutcome) : Except String (Option String) :=
  match host with
  | .ok => .ok none
  | .jsException m => .ok (some m)
  | .otherPanic m => .error m

/-- `WebSocket.Close` (websocketjs.go lines 188-206): calls the host
`close(1000)` inside the same `recover` guard; a `*js.Error` becomes the
returned error, any other panic propagates. -/
def websocketjs.Close (host : HostOutcome) : Except String (Option String) :=
  match host with
  | .ok => .ok none
  | .jsException m => .ok (some m)
  | .otherPanic m => .error m

/-- `closeNormalClosure` (websocketjs.go line 212). -/
def closeNormalClosure : Nat := 1000

/-- The data carried by a host `CloseEvent`, as read by `closeError`
(conn.go lines 27-40): status code, reason text, and the `wasClean`
flag. -/
structure CloseEvent where
  code : Nat
  reason : String
  wasClean : Bool
deriving DecidableEq, Repr

/-- The Go `error` values that the adapter's read path can produce or
(per the spec) is claimed to produce: `io.EOF`, `errDeadlineReached`
(conn.go lines 50-56), and `*closeError` (conn.go lines 27-40) wrapping a
close event. -/
inductive GoError
  | eof
  | deadlineReached
  | closeError (ev : CloseEvent)
deriving DecidableEq, Repr

/-- `deadlineErr.Timeout` (conn.go line 53): only `errDeadlineReached`
implements `net.Error` with `Timeout() == true`; for the other error
values a `net.Error` assertion fails, modelled as `false`. -/
def GoError.Timeout : GoError → Bool
  | .deadlineReached => true
  | _ => false

/-- `deadlineErr.Temporary` (conn.go line 54). -/
def GoError.Temporary : GoError → Bool
  | .deadlineReached => true
  | _ => false

/-- State of the `readCh` channel as seen by the consumer: the frames
still queued ahead of the reader (in FIFO order, as maintained by
`bufferMessageEvents`), and whether the channel has been closed by the
producer side. -/
structure ChanState where
  queued : List (List Nat)
  closed : Bool
deriving DecidableEq, Repr

/-- A non-blocking receive attempt on `readCh`: yields the Go pair
`(item, ok)` plus the channel state after the receive, or `none` when the
receive would block (channel empty and not closed).  A closed, drained
channel yields the zero value with `ok = false`. -/
def tryRecv (ch : ChanState) : Option ((Option (List Nat) × Bool) × ChanState) :=
  match ch.queued with
  | f :: rest => some ((some f, true), ⟨rest, ch.closed⟩)
  | [] => if ch.closed then some ((none, false), ch) else none

/-- The `conn` struct (conn.go lines 109-122), restricted to the fields
the read path uses: `readBuf` (the `*bytes.Reader` carry-over: `none` for
a nil reader, `some l` for a reader with remaining bytes `l`, possibly
empty), the `readCh` state, and `readDeadline` (`none` models the zero
`time.Time`). -/
structure Conn where
  readBuf : Option (List Nat)
  readCh : ChanState
  readDeadline : Option Nat
deriving DecidableEq, Repr

/-- `conn.handleFrame` (conn.go lines 212-218): a closed channel
(`ok = false`) yields `io.EOF`; otherwise the message is returned.  Note
the source returns plain `io.EOF` unconditionally on closure — no close
event information is consulted. -/
def handleFrame (message : Option (List Nat)) (ok : Bool) : Except GoError (List Nat) :=
  if ok = false then .error .eof
  else .ok (message.getD [])

/-- Which case of the blocking `select` in `receiveFrame` (conn.go lines
242-247) fires: the channel receive, or the deadline timer. -/
inductive SelectCase
  | fromChan
  | fromTimer
deriving DecidableEq, Repr

/-- `receiveFrame` can only resolve to the timer case when the channel
receive is not already ready at entry: the timer is always armed strictly
in the future, so a ready channel case is the unique ready case when the
`select` begins. -/
def selectPossible (ch : ChanState) (sel : SelectCase) : Prop :=
  sel = SelectCase.fromTimer → tryRecv ch = none

/-- The duration of the timer armed by `receiveFrame` (conn.go lines
236-239, `time.NewTimer(c.readDeadline.Sub(now))`): armed only when a
deadline is set and not already past. -/
def armedTimer (deadline : Option Nat) (now : Nat) : Option Nat :=
  match deadline with
  | some d => if d < now then none else some (d - now)
  | none => none

/-- `conn.receiveFrame` (conn.go lines 222-248).  `now` models
`time.Now()`; `sel` resolves the blocking `select`.  Result: `none` when
the call blocks under the current channel state (receiving on a nil
timer channel with an empty, unclosed queue), otherwise the
frame-or-error together with the channel state after the receive.
With a deadline already in the past the queue is only polled
(non-blocking `select` with `default`), returning `errDeadlineReached`
when empty. -/
def receiveFrame (c : Conn) (observeDeadline : Bool) (now : Nat) (sel : SelectCase) :
    Option (Except GoError (List Nat) × ChanState) :=
  match (if observeDeadline then c.readDeadline else none) with
  | some d =>
    if d < now then
      -- now.After(readDeadline): non-blocking poll with a default case
      match tryRecv c.readCh with
      | some ((item, ok), ch2) => some (handleFrame item ok, ch2)
      | none => some (.error .deadlineReached, c.readCh)
    else
      -- timer armed at the deadline; block on channel or timer
      match sel with
      | .fromChan =>
        match tryRecv c.readCh with
        | some ((item, ok), ch2) => some (handleFrame item ok, ch2)
        | none => none
      | .fromTimer => some (.error .deadlineReached, c.readCh)
  | none =>
    -- no deadline: the timer channel is nil and never fires
    match sel with
    | .fromChan =>
      match tryRecv c.readCh with
      | some ((item, ok), ch2) => some (handleFrame item ok, ch2)
      | none => none
    | .fromTimer => none

/-- The tail of `conn.Read` after the carry-over buffer has been handled
(conn.go lines 284-298): receive a frame, copy what fits
(`n = copy(b, receivedBytes)`), and retain any remainder in a fresh
`bytes.Reader`.  At this point `readBuf` is nil in the source. -/
def connReadRecv (c : Conn) (cap now : Nat) (sel : SelectCase) :
    Option (List Nat × Option GoError × Conn) :=
  match receiveFrame c true now sel with
  | none => none
  | some (.error e, ch2) => some ([], some e, { c with readCh := ch2 })
  | some (.ok receivedBytes, ch2) =>
    if receivedBytes.length ≤ cap then
      -- fast path: the entire frame fits in b
      some (receivedBytes, none, { c with readCh := ch2, readBuf := none })
    else
      some (receivedBytes.take cap, none,
        { c with readCh := ch2, readBuf := some (receivedBytes.drop cap) })

/-- `conn.Read` (conn.go lines 263-299).  `cap` is `len(b)`; the data
actually written into `b` is returned as a list.  A zero-length buffer
returns immediately.  A non-nil `readBuf` is drained first
(`bytes.Reader.Read`: a non-empty reader returns `min` bytes and a nil
error; an empty reader returns `(0, io.EOF)`, upon which the source nils
the field and falls through to receiving a frame). -/
def Conn.Read (c : Conn) (cap now : Nat) (sel : SelectCase) :
    Option (List Nat × Option GoError × Conn) :=
  if cap = 0 then some ([], none, c)
  else
    match c.readBuf with
    | some l =>
      if l.isEmpty then connReadRecv { c with readBuf := none } cap now sel
      else some (l.take cap, none, { c with readBuf := some (l.drop cap) })
    | none => connReadRecv c cap now sel

/-- `conn.Write` (conn.go lines 302-312): send the whole buffer as one
binary frame via `websocketjs.Send`; on a send error return `(0, err)`,
otherwise `(len(b), nil)`.  A non-`*js.Error` panic from the host
propagates out of `Send` and hence out of `Write`. -/
def Conn.Write (b : List Nat) (host : HostOutcome) : Except String (Nat × Option String) :=
  match websocketjs.Send host with
  | .error p => .error p
  | .ok (some e) => .ok (0, some e)
  | .ok none => .ok (b.length, none)

/-- Which of the two connection-establishment handlers fires first while
`Dial` blocks on `openCh`: `beginHandlerOpen` (the transport opened) or
`beginHandlerClose` (the transport fired `close` before `open`, carrying
the close event). -/
inductive ConnectEvent
  | openFired
  | closeFired (ev : CloseEvent)
deriving DecidableEq, Repr

/-- Modelled from the spec (host collaborator contract, not repository
code): the host fires `open` once the transport reaches the Open state
and fires `close` only once the transport has reached the Closed state,
so the transport's ready state when `Dial` unblocks is determined by
which event fired. -/
def readyStateAfterFirstEvent : ConnectEvent → ReadyState
  | .openFired => .opened
  | .closeFired _ => .closed

/-- The errors `Dial` can return: the `websocketjs.New` error, or the
`*closeError` sent on `openCh` by `beginHandlerClose` (conn.go lines
42-48) when the close event beats the open event. -/
inductive DialError
  | newFailed (msg : String)
  | closeBeforeOpen (ev : CloseEvent)
deriving DecidableEq, Repr

/-- The `conn` as set up by `Dial` and `conn.initialize` before any
message or close event: nil `readBuf`, an empty open `readCh` (the
`bufferMessageEvents` goroutine starts with an empty queue and an open
write channel), zero `readDeadline`. -/
def freshConn : Conn := ⟨none, ⟨[], false⟩, none⟩

/-- `Dial` (conn.go lines 63-106), parametrized by the host constructor
outcome and by which establishment handler fires first.  Result models
the Go pair `(net.Conn, error)`: on `open` first, `openCh` is closed and
the receive yields `(nil, false)`, so `Dial` returns `(conn, nil)`; on
`close` first, `beginHandlerClose` sends `&closeError{Value: ev}` and
`Dial` returns `(nil, err)`. -/
def Dial (newHost : HostOutcome) (firstEvent : ConnectEvent) :
    Except String (Option Conn × Option DialError) :=
  match websocketjs.New newHost with
  | .error p => .error p
  | .ok (_, some e) => .ok (none, some (.newFailed e))
  | .ok (_, none) =>
    match firstEvent with
    | .openFired => .ok (some freshConn, none)
    | .closeFired ev => .ok (none, some (.closeBeforeOpen ev))

/-- One invocation of `conn.onClose` (conn.go lines 133-144) acting on
the `isClosed` word: `atomic.CompareAndSwapUint32(c.isClosed, 0, 1)`
returns whether the swap happened, and the teardown block (`close(
writeCh)`, removing and releasing both listeners) runs exactly when it
did.  The close event argument is ignored by the source.  Result:
(new `isClosed` value, whether the teardown block ran). -/
def onCloseStep (isClosed : Nat) : Nat × Bool :=
  if isClosed = 0 then (1, true) else (isClosed, false)

/-- A sequence of `k` `onClose` invocations (any interleaving of
`conn.Close` calls and host close events linearizes to such a sequence,
because the CAS is atomic).  Result: (final `isClosed` value, number of
times the teardown block ran). -/
def runCloses : Nat → Nat → Nat × Nat
  | 0, s => (s, 0)
  | k + 1, s =>
    let fst := onCloseStep s
    let rest := runCloses k fst.1
    (rest.1, (if fst.2 then 1 else 0) + rest.2)

/-- One `select` choice inside the `bufferMessageEvents` loop (conn.go
lines 194-205): receive the next event from the write channel, or send
the queue head to the reader. -/
inductive LoopCase
  | recvWrite
  | sendRead
deriving DecidableEq, Repr

/-- `bufferMessageEvents` (conn.go lines 175-208), driven by a schedule
of `select` choices.  `queue` is the internal FIFO (appended at the tail,
delivered from the head), `pend` the events the handlers will still send
on the write channel (followed by the channel close from `onClose`), and
`writeNil` whether the loop has already observed the close and set
`write = nil`.  Returns the list of frames delivered to the reader when
the loop runs to completion (after which it closes the read channel), or
`none` when the schedule stops early or picks a case that is not
ready. -/
def bufferMessageEvents :
    List LoopCase → List (List Nat) → List (List Nat) → Bool → Option (List (List Nat))
  | sched, queue, pend, writeNil =>
    if queue.isEmpty && writeNil then some []
    else
      match sched with
      | [] => none
      | LoopCase.recvWrite :: rest =>
        if writeNil then none
        else
          match pend with
          | f :: ps => bufferMessageEvents rest (queue ++ [f]) ps false
          | [] => bufferMessageEvents rest queue [] true
      | LoopCase.sendRead :: rest =>
        match queue with
        | f :: qs => (bufferMessageEvents rest qs pend writeNil).map (fun out => f :: out)
        | [] => none

/-- The `conn` state once a sequence of message events followed by a
close event has been fully pumped through `bufferMessageEvents`: the
delivered frames sit queued ahead of the reader and the read channel is
closed.  `conn.onClose` ignores its event argument entirely (conn.go
lines 133-144), so no part of `closeEv` flows into the state. -/
def connAfterEvents (msgs : List (List Nat)) (_closeEv : CloseEvent) : Conn :=
  ⟨none, ⟨msgs, true⟩, none⟩

/-- The bytes still owed to the reader: carry-over remainder first, then
the queued frames in order. -/
def pendingBytes (c : Conn) : List Nat :=
  c.readBuf.getD [] ++ (c.readCh.queued).flatten

/-- Reads driven by a list of buffer sizes, in the post-closure scenario
(no deadline, closed channel, so the `select` always resolves from the
channel): collect the bytes of successive `Read` calls, stopping when a
`Read` returns an error (end-of-stream); the flag records whether that
happened before the sizes ran out. -/
def runReads : Conn → List Nat → List Nat × Bool
  | _, [] => ([], false)
  | c, cap :: rest =>
    match Conn.Read c cap 0 SelectCase.fromChan with
    | none => ([], false)
    | some (_, some _, _) => ([], true)
    | some (data, none, c2) =>
      let t := runReads c2 rest
      (data ++ t.1, t.2)

/-! ## Helper lemmas -/

/-- Exhaustive description of a non-blocking receive attempt. -/
theorem tryRecv_spec (ch : ChanState) :
    (∃ f rest, ch.queued = f :: rest ∧ tryRecv ch = some ((some f, true), ⟨rest, ch.closed⟩))
  ∨ (ch.queued = [] ∧ ch.closed = true ∧ tryRecv ch = some ((none, false), ch))
  ∨ (ch.queued = [] ∧ ch.closed = false ∧ tryRecv ch = none) := by
  rcases ch with ⟨q, cl⟩
  cases q with
  | nil => cases cl <;> simp [tryRecv]
  | cons f rest => exact Or.inl ⟨f, rest, rfl, rfl⟩

/-- Unfolding equation of `bufferMessageEvents` for an exhausted
schedule. -/
theorem bufferMessageEvents_nil_eq (queue pend : List (List Nat)) (wn : Bool) :
    bufferMessageEvents [] queue pend wn =
      if queue.isEmpty && wn then some [] else none :=
  rfl

/-- Unfolding equation of `bufferMessageEvents` when the schedule next
fires the write-channel receive case. -/
theorem bufferMessageEvents_recvWrite_eq (rest : List LoopCase)
    (queue pend : List (List Nat)) (wn : Bool) :
    bufferMessageEvents (LoopCase.recvWrite :: rest) queue pend wn =
      if queue.isEmpty && wn then some []
      else if wn then none
      else
        match pend with
        | f :: ps => bufferMessageEvents rest (queue ++ [f]) ps false
        | [] => bufferMessageEvents rest queue [] true :=
  rfl

/-- Unfolding equation of `bufferMessageEvents` when the schedule next
fires the reader-send case. -/
theorem bufferMessageEvents_sendRead_eq (rest : List LoopCase)
    (queue pend : List (List Nat)) (wn : Bool) :
    bufferMessageEvents (LoopCase.sendRead :: rest) queue pend wn =
      if queue.isEmpty && wn then some []
      else
        match queue with
        | f :: qs => (bufferMessageEvents rest qs pend wn).map (fun out => f :: out)
        | [] => none :=
  rfl

/-- FIFO behavior of the `bufferMessageEvents` loop: any complete run
delivers exactly the queued frames followed by the still-pending events,
in arrival order.  The side condition records that the write channel is
only observed closed after the handlers have sent everything. -/
theorem bufferMessageEvents_fifo (sched : List LoopCase) :
    ∀ (queue pend : List (List Nat)) (writeNil : Bool) (delivered : List (List Nat)),
      (writeNil = true → pend = []) →
      bufferMessageEvents sched queue pend writeNil = some delivered →
      delivered = queue ++ pend := by
  induction sched with
  | nil =>
    intro queue pend wn delivered hinv h
    rw [bufferMessageEvents_nil_eq] at h
    split at h
    · rename_i hq
      rw [Bool.and_eq_true, List.isEmpty_eq_true] at hq
      cases h
      rw [hq.1, hinv hq.2]
      rfl
    · simp at h
  | cons choice rest ih =>
    intro queue pend wn delivered hinv h
    cases choice with
    | recvWrite =>
      rw [bufferMessageEvents_recvWrite_eq] at h
      split at h
      · rename_i hq
        rw [Bool.and_eq_true, List.isEmpty_eq_true] at hq
        cases h
        rw [hq.1, hinv hq.2]
        rfl
      · split at h
        · exact absurd h (by simp)
        · cases pend with
          | cons f ps =>
            have hd := ih (queue ++ [f]) ps false delivered (by intro hx; cases hx) h
            rw [hd]
            simp
          | nil =>
            exact ih queue [] true delivered (fun _ => rfl) h
    | sendRead =>
      rw [bufferMessageEvents_sendRead_eq] at h
      split at h
      · rename_i hq
        rw [Bool.and_eq_true, List.isEmpty_eq_true] at hq
        cases h
        rw [hq.1, hinv hq.2]
        rfl
      · cases queue with
        | nil => exact absurd h (by simp)
        | cons f qs =>
          rcases Option.map_eq_some'.mp h with ⟨out, hout, hmap⟩
          have hd := ih qs pend wn out hinv hout
          rw [← hmap, hd]
          rfl

/-- A single `Read` in the post-closure, no-deadline scenario either
reports end-of-stream (exactly when no bytes are pending) or returns
bytes that concatenate with the remaining pending bytes to what was
pending before. -/
theorem Read_closed_step (c : Conn) (cap : Nat)
    (hclosed : c.readCh.closed = true) (hdl : c.readDeadline = none) (hcap : 1 ≤ cap) :
    (∃ c2, Conn.Read c cap 0 SelectCase.fromChan = some ([], some GoError.eof, c2)
        ∧ pendingBytes c = [])
  ∨ (∃ data c2, Conn.Read c cap 0 SelectCase.fromChan = some (data, none, c2)
        ∧ data ++ pendingBytes c2 = pendingBytes c
        ∧ c2.readCh.closed = true ∧ c2.readDeadline = none) := by
  have hcap0 : cap ≠ 0 := by omega
  rcases c with ⟨rb, ⟨q, cl⟩, dl⟩
  simp only at hclosed hdl
  subst hclosed hdl
  cases rb with
  | none =>
    cases q with
    | nil =>
      refine Or.inl ⟨⟨none, ⟨[], true⟩, none⟩, ?_, ?_⟩
      · simp [Conn.Read, connReadRecv, receiveFrame, tryRecv, handleFrame, hcap0]
      · simp [pendingBytes]
    | cons f qs =>
      by_cases hlen : f.length ≤ cap
      · refine Or.inr ⟨f, ⟨none, ⟨qs, true⟩, none⟩, ?_, ?_, rfl, rfl⟩
        · simp [Conn.Read, connReadRecv, receiveFrame, tryRecv, handleFrame, hcap0, hlen]
        · simp [pendingBytes]
      · refine Or.inr ⟨f.take cap, ⟨some (f.drop cap), ⟨qs, true⟩, none⟩, ?_, ?_, rfl, rfl⟩
        · simp [Conn.Read, connReadRecv, receiveFrame, tryRecv, handleFrame, hcap0, hlen]
        · simp only [pendingBytes, Option.getD_some, Option.getD_none]
          rw [← List.append_assoc, List.take_append_drop]
          simp
  | some l =>
    cases l with
    | nil =>
      cases q with
      | nil =>
        refine Or.inl ⟨⟨none, ⟨[], true⟩, none⟩, ?_, ?_⟩
        · simp [Conn.Read, connReadRecv, receiveFrame, tryRecv, handleFrame, hcap0]
        · simp [pendingBytes]
      | cons f qs =>
        by_cases hlen : f.length ≤ cap
        · refine Or.inr ⟨f, ⟨none, ⟨qs, true⟩, none⟩, ?_, ?_, rfl, rfl⟩
          · simp [Conn.Read, connReadRecv, receiveFrame, tryRecv, handleFrame, hcap0, hlen]
          · simp [pendingBytes]
        · refine Or.inr ⟨f.take cap, ⟨some (f.drop cap), ⟨qs, true⟩, none⟩, ?_, ?_, rfl, rfl⟩
          · simp [Conn.Read, connReadRecv, receiveFrame, tryRecv, handleFrame, hcap0, hlen]
          · simp only [pendingBytes, Option.getD_some, Option.getD_none]
            rw [← List.append_assoc, List.take_append_drop]
            simp
    | cons x xs =>
      refine Or.inr ⟨(x :: xs).take cap, ⟨some ((x :: xs).drop cap), ⟨q, true⟩, none⟩,
        ?_, ?_, rfl, rfl⟩
      · simp [Conn.Read, hcap0]
      · simp only [pendingBytes, Option.getD_some]
        rw [← List.append_assoc, List.take_append_drop]

/-- Reads with positive buffer sizes that reach end-of-stream collect
exactly the pending bytes. -/
theorem runReads_eof_concat (sizes : List Nat) :
    ∀ (c : Conn), c.readCh.closed = true → c.readDeadline = none →
      (∀ s ∈ sizes, 1 ≤ s) → (runReads c sizes).2 = true →
      (runReads c sizes).1 = pendingBytes c := by
  induction sizes with
  | nil =>
    intro c _ _ _ hdone
    simp [runReads] at hdone
  | cons cap rest ih =>
    intro c hclosed hdl hpos hdone
    have hcap : 1 ≤ cap := hpos cap (by simp)
    rcases Read_closed_step c cap hclosed hdl hcap with
      ⟨c2, hr, hp⟩ | ⟨data, c2, hr, hsum, hc2, hd2⟩
    · simp [runReads, hr, hp]
    · have hrest : ∀ s ∈ rest, 1 ≤ s := fun s hs => hpos s (List.mem_cons_of_mem _ hs)
      simp only [runReads, hr] at hdone ⊢
      have := ih c2 hc2 hd2 hrest hdone
      rw [this, hsum]

/-- `handleFrame` returns an error only for a closed channel, and that
error is `io.EOF`. -/
theorem handleFrame_error_inv (message : Option (List Nat)) (ok : Bool) (e : GoError)
    (h : handleFrame message ok = Except.error e) : e = GoError.eof ∧ ok = false := by
  cases ok with
  | false =>
    simp [handleFrame] at h
    exact ⟨h.symm, rfl⟩
  | true => simp [handleFrame] at h

/-- A receive that observed `ok = false` came from an empty closed
channel, which it left unchanged. -/
theorem tryRecv_closed_of_not_ok (ch : ChanState) (item : Option (List Nat)) (ch2 : ChanState)
    (h : tryRecv ch = some ((item, false), ch2)) :
    ch.queued = [] ∧ ch.closed = true ∧ ch2 = ch ∧ item = none := by
  rcases ch with ⟨q, cl⟩
  cases q with
  | nil =>
    cases cl with
    | true =>
      simp [tryRecv] at h
      exact ⟨rfl, rfl, h.2.symm, h.1.symm⟩
    | false => simp [tryRecv] at h
  | cons f qs => simp [tryRecv] at h

/-- Shared leaf for the channel case of `receiveFrame` resolving to an
error. -/
theorem receiveFrame_chan_error_aux (ch : ChanState) (item : Option (List Nat)) (ok : Bool)
    (ch3 : ChanState) (e : GoError) (ch2 : ChanState)
    (heq : tryRecv ch = some ((item, ok), ch3))
    (hf : handleFrame item ok = Except.error e) (hc3 : ch3 = ch2) :
    ch2 = ch ∧ (e = GoError.eof → ch.queued = [] ∧ ch.closed = true)
      ∧ (e = GoError.eof ∨ e = GoError.deadlineReached) := by
  obtain ⟨he, hok⟩ := handleFrame_error_inv item ok e hf
  subst hok
  obtain ⟨hq, hcl, hch3, _⟩ := tryRecv_closed_of_not_ok ch item ch3 heq
  subst he
  exact ⟨by rw [← hc3, hch3], fun _ => ⟨hq, hcl⟩, Or.inl rfl⟩

/-- Inversion of `receiveFrame` resolving to an error: the channel is
untouched, `io.EOF` only arises from an empty closed channel, and the
only possible errors are `io.EOF` and `errDeadlineReached`. -/
theorem receiveFrame_error_inv (c : Conn) (now : Nat) (sel : SelectCase)
    (e : GoError) (ch2 : ChanState)
    (h : receiveFrame c true now sel = some (Except.error e, ch2)) :
    ch2 = c.readCh
    ∧ (e = GoError.eof → c.readCh.queued = [] ∧ c.readCh.closed = true)
    ∧ (e = GoError.eof ∨ e = GoError.deadlineReached) := by
  unfold receiveFrame at h
  rw [if_pos rfl] at h
  split at h
  · -- deadline set
    split at h
    · -- already past: non-blocking poll
      split at h
      · rename_i item ok ch3 heq
        simp only [Option.some.injEq, Prod.mk.injEq] at h
        exact receiveFrame_chan_error_aux c.readCh item ok ch3 e ch2 heq h.1 h.2
      · simp only [Option.some.injEq, Prod.mk.injEq, Except.error.injEq] at h
        obtain ⟨he, hch⟩ := h
        subst he
        exact ⟨hch.symm, fun hx => absurd hx (by decide), Or.inr rfl⟩
    · -- deadline in the future: timer armed
      split at h
      · -- select resolved from the channel
        split at h
        · rename_i item ok ch3 heq
          simp only [Option.some.injEq, Prod.mk.injEq] at h
          exact receiveFrame_chan_error_aux c.readCh item ok ch3 e ch2 heq h.1 h.2
        · simp at h
      · -- select resolved from the timer
        simp only [Option.some.injEq, Prod.mk.injEq, Except.error.injEq] at h
        obtain ⟨he, hch⟩ := h
        subst he
        exact ⟨hch.symm, fun hx => absurd hx (by decide), Or.inr rfl⟩
  · -- no deadline
    split at h
    · split at h
      · rename_i item ok ch3 heq
        simp only [Option.some.injEq, Prod.mk.injEq] at h
        exact receiveFrame_chan_error_aux c.readCh item ok ch3 e ch2 heq h.1 h.2
      · simp at h
    · simp at h

/-- Inversion of the receive tail of `Read` resolving to an error. -/
theorem connReadRecv_error_inv (c : Conn) (cap now : Nat) (sel : SelectCase)
    (data : List Nat) (e : GoError) (c2 : Conn)
    (h : connReadRecv c cap now sel = some (data, some e, c2)) :
    data = [] ∧ c2 = c
    ∧ (e = GoError.eof → c.readCh.queued = [] ∧ c.readCh.closed = true)
    ∧ (e = GoError.eof ∨ e = GoError.deadlineReached) := by
  unfold connReadRecv at h
  split at h
  · simp at h
  · rename_i e1 ch2v heq
    simp only [Option.some.injEq, Prod.mk.injEq] at h
    obtain ⟨hdata, he1, hc2⟩ := h
    subst he1
    obtain ⟨hch, himp, hor⟩ := receiveFrame_error_inv c now sel e1 ch2v heq
    subst hch
    refine ⟨hdata.symm, ?_, himp, hor⟩
    rw [← hc2]
  · rename_i rb ch2v heq
    split at h <;> simp at h

/-- Inversion of `Read` resolving to an error: no data is returned, the
carry-over buffer has been discarded, channel and deadline are unchanged,
`io.EOF` implies an empty closed channel, and the only possible errors
are `io.EOF` and `errDeadlineReached`. -/
theorem Read_error_inv (c : Conn) (cap now : Nat) (sel : SelectCase)
    (data : List Nat) (e : GoError) (c2 : Conn)
    (h : Conn.Read c cap now sel = some (data, some e, c2)) :
    data = [] ∧ c2.readBuf = none ∧ c2.readCh = c.readCh ∧ c2.readDeadline = c.readDeadline
    ∧ (e = GoError.eof → c.readCh.queued = [] ∧ c.readCh.closed = true)
    ∧ (e = GoError.eof ∨ e = GoError.deadlineReached) := by
  unfold Conn.Read at h
  split at h
  · simp at h
  · split at h
    · rename_i l hbuf
      split at h
      · obtain ⟨hdata, hc2, himp, hor⟩ :=
          connReadRecv_error_inv { c with readBuf := none } cap now sel data e c2 h
        exact ⟨hdata, by rw [hc2], by rw [hc2], by rw [hc2], himp, hor⟩
      · simp at h
    · rename_i hbuf
      obtain ⟨hdata, hc2, himp, hor⟩ := connReadRecv_error_inv c cap now sel data e c2 h
      subst hc2
      exact ⟨hdata, hbuf, rfl, rfl, himp, hor⟩

/-! ## Claim theorems -/

/-- C1: for every sequence of frames delivered by message events before
closure (pumped FIFO through `bufferMessageEvents`) and every sequence of
Read calls with arbitrary positive buffer sizes, the concatenation of the
bytes returned by successive Read calls up to end-of-stream equals the
concatenation of the frames in arrival order, regardless of where
read-buffer boundaries fall relative to frame boundaries. -/
theorem ordered_reads_reconstruct_stream
    (arrivals delivered : List (List Nat)) (sched : List LoopCase) (sizes : List Nat)
    (hbuf : bufferMessageEvents sched [] arrivals false = some delivered)
    (hsizes : ∀ s ∈ sizes, 1 ≤ s)
    (heof : (runReads ⟨none, ⟨delivered, true⟩, none⟩ sizes).2 = true) :
    (runReads ⟨none, ⟨delivered, true⟩, none⟩ sizes).1 = arrivals.flatten := by
  have hd : delivered = arrivals := by
    simpa using bufferMessageEvents_fifo sched [] arrivals false delivered
      (by intro hx; cases hx) hbuf
  subst hd
  have hmain := runReads_eof_concat sizes ⟨none, ⟨delivered, true⟩, none⟩ rfl rfl hsizes heof
  rw [hmain]
  simp [pendingBytes]

/-- Witness for C1: three frames, reads of sizes 2,2,2,2,1 crossing the
frame boundaries, reconstructing the 6-byte stream. -/
theorem ordered_reads_reconstruct_stream_witness :
    (runReads ⟨none, ⟨[[0, 1, 2], [3], [4, 5]], true⟩, none⟩ [2, 2, 2, 2, 1]).1
      = [[0, 1, 2], [3], [4, 5]].flatten :=
  ordered_reads_reconstruct_stream [[0, 1, 2], [3], [4, 5]] [[0, 1, 2], [3], [4, 5]]
    [LoopCase.recvWrite, LoopCase.recvWrite, LoopCase.recvWrite, LoopCase.recvWrite,
     LoopCase.sendRead, LoopCase.sendRead, LoopCase.sendRead]
    [2, 2, 2, 2, 1] (by decide) (by decide) (by decide)

/-- C2: a frame larger than the destination buffer is copied partially
and the remainder is retained in the carry-over buffer, which subsequent
Reads drain first, returning immediately (no new frame is received and
the channel state is untouched) whenever the carry-over yields bytes;
concretely, for the single frame [0x00,0x01,0x02,0x03,0x04] followed by
closure, three 2-byte Reads yield [0x00,0x01], [0x02,0x03], [0x04], and
the next Read returns end-of-stream. -/
theorem partial_read_carryover :
    (∀ (c : Conn) (x : Nat) (xs : List Nat) (cap now : Nat) (sel : SelectCase),
        c.readBuf = some (x :: xs) → 1 ≤ cap →
        Conn.Read c cap now sel
          = some ((x :: xs).take cap, none,
              { c with readBuf := some ((x :: xs).drop cap) }))
  ∧ Conn.Read ⟨none, ⟨[[0, 1, 2, 3, 4]], true⟩, none⟩ 2 0 SelectCase.fromChan
      = some ([0, 1], none, ⟨some [2, 3, 4], ⟨[], true⟩, none⟩)
  ∧ Conn.Read ⟨some [2, 3, 4], ⟨[], true⟩, none⟩ 2 0 SelectCase.fromChan
      = some ([2, 3], none, ⟨some [4], ⟨[], true⟩, none⟩)
  ∧ Conn.Read ⟨some [4], ⟨[], true⟩, none⟩ 2 0 SelectCase.fromChan
      = some ([4], none, ⟨some [], ⟨[], true⟩, none⟩)
  ∧ Conn.Read ⟨some [], ⟨[], true⟩, none⟩ 2 0 SelectCase.fromChan
      = some ([], some GoError.eof, ⟨none, ⟨[], true⟩, none⟩) := by
  refine ⟨?_, by decide, by decide, by decide, by decide⟩
  intro c x xs cap now sel hbuf hcap
  have hcap0 : cap ≠ 0 := by omega
  simp [Conn.Read, hbuf, hcap0]

/-- Witness for C2: draining a concrete three-byte carry-over with a
2-byte buffer. -/
theorem partial_read_carryover_witness :
    Conn.Read ⟨some [9, 8, 7], ⟨[], true⟩, none⟩ 2 0 SelectCase.fromChan
      = some ([9, 8], none, ⟨some [7], ⟨[], true⟩, none⟩) :=
  partial_read_carryover.1 ⟨some [9, 8, 7], ⟨[], true⟩, none⟩ 9 [8, 7] 2 0
    SelectCase.fromChan rfl (by decide)

/-- C3 counterexample: after an abnormal close (`wasClean = false`, code
1006) the next Read at end-of-stream returns plain `io.EOF`, not an error
carrying the close information — `conn.onClose` drops the close event and
`handleFrame` returns `io.EOF` unconditionally. -/
theorem abnormal_close_read_counterexample :
    Conn.Read (connAfterEvents [] ⟨1006, "", false⟩) 1 0 SelectCase.fromChan
      = some ([], some GoError.eof, connAfterEvents [] ⟨1006, "", false⟩)
    ∧ GoError.eof ≠ GoError.closeError ⟨1006, "", false⟩ :=
  ⟨by decide, by decide⟩

/-- C3 amended: a Read that resolves with an error only ever returns
`io.EOF` or `errDeadlineReached`; close information (code, reason, clean
flag) is never surfaced through Read, regardless of whether the closure
was clean. -/
theorem read_never_surfaces_close_info (c : Conn) (cap now : Nat) (sel : SelectCase)
    (data : List Nat) (e : GoError) (c2 : Conn)
    (h : Conn.Read c cap now sel = some (data, some e, c2)) :
    e = GoError.eof ∨ e = GoError.deadlineReached :=
  (Read_error_inv c cap now sel data e c2 h).2.2.2.2.2

/-- Witness for the amended C3. -/
theorem read_never_surfaces_close_info_witness :
    GoError.eof = GoError.eof ∨ GoError.eof = GoError.deadlineReached :=
  read_never_surfaces_close_info ⟨none, ⟨[], true⟩, none⟩ 1 0 SelectCase.fromChan
    [] GoError.eof ⟨none, ⟨[], true⟩, none⟩ (by decide)

/-- C4: with a deadline already in the past and an empty (unclosed)
queue, Read needing a new frame polls non-blockingly and returns the
timeout error immediately; that error reports both `Timeout()` and
`Temporary()` as true; with a future deadline the timer fires with
duration `deadline - now` and its firing yields the same timeout error,
while a queued frame resolves the select with data. -/
theorem read_deadline_behavior :
    (∀ (c : Conn) (d now cap : Nat) (sel : SelectCase),
        c.readBuf = none → c.readDeadline = some d → d < now →
        c.readCh.queued = [] → c.readCh.closed = false → 1 ≤ cap →
        Conn.Read c cap now sel = some ([], some GoError.deadlineReached, c))
  ∧ GoError.Timeout GoError.deadlineReached = true
  ∧ GoError.Temporary GoError.deadlineReached = true
  ∧ (∀ (c : Conn) (d now cap : Nat),
        c.readBuf = none → c.readDeadline = some d → ¬ d < now → 1 ≤ cap →
        Conn.Read c cap now SelectCase.fromTimer
          = some ([], some GoError.deadlineReached, c))
  ∧ (∀ (c : Conn) (d now cap : Nat) (f : List Nat) (rest : List (List Nat)),
        c.readBuf = none → c.readDeadline = some d → ¬ d < now →
        c.readCh.queued = f :: rest → 1 ≤ cap →
        ∃ c2, Conn.Read c cap now SelectCase.fromChan = some (f.take cap, none, c2))
  ∧ (∀ (d now : Nat), ¬ d < now → armedTimer (some d) now = some (d - now)) := by
  refine ⟨?_, rfl, rfl, ?_, ?_, ?_⟩
  · intro c d now cap sel hrb hdl hdn hq hcl hcap
    have hcap0 : cap ≠ 0 := by omega
    rcases c with ⟨rb, ⟨q, cl⟩, dl⟩
    simp only at hrb hdl hq hcl
    subst hrb hdl hq hcl
    simp [Conn.Read, connReadRecv, receiveFrame, tryRecv, hcap0, hdn]
  · intro c d now cap hrb hdl hdn hcap
    have hcap0 : cap ≠ 0 := by omega
    rcases c with ⟨rb, ch, dl⟩
    simp only at hrb hdl
    subst hrb hdl
    simp [Conn.Read, connReadRecv, receiveFrame, hcap0, hdn]
  · intro c d now cap f rest hrb hdl hdn hq hcap
    have hcap0 : cap ≠ 0 := by omega
    rcases c with ⟨rb, ⟨q, cl⟩, dl⟩
    simp only at hrb hdl hq
    subst hrb hdl hq
    by_cases hlen : f.length ≤ cap
    · refine ⟨⟨none, ⟨rest, cl⟩, some d⟩, ?_⟩
      have htake : f.take cap = f := List.take_of_length_le hlen
      simp [Conn.Read, connReadRecv, receiveFrame, tryRecv, handleFrame, hcap0, hdn,
        hlen, htake]
    · refine ⟨⟨some (f.drop cap), ⟨rest, cl⟩, some d⟩, ?_⟩
      simp [Conn.Read, connReadRecv, receiveFrame, tryRecv, handleFrame, hcap0, hdn, hlen]
  · intro d now hdn
    simp [armedTimer, hdn]

/-- Witness for C4: a past deadline (3 < 5) with an empty open queue
times out; a future deadline (5 < 9) with the timer firing times out. -/
theorem read_deadline_behavior_witness :
    Conn.Read ⟨none, ⟨[], false⟩, some 3⟩ 1 5 SelectCase.fromChan
      = some ([], some GoError.deadlineReached, ⟨none, ⟨[], false⟩, some 3⟩)
    ∧ Conn.Read ⟨none, ⟨[], false⟩, some 9⟩ 1 5 SelectCase.fromTimer
      = some ([], some GoError.deadlineReached, ⟨none, ⟨[], false⟩, some 9⟩) :=
  ⟨read_deadline_behavior.1 ⟨none, ⟨[], false⟩, some 3⟩ 3 5 1 SelectCase.fromChan
      rfl rfl (by decide) rfl rfl (by decide),
    read_deadline_behavior.2.2.2.1 ⟨none, ⟨[], false⟩, some 9⟩ 9 5 1
      rfl rfl (by decide) (by decide)⟩

/-- C5: once a Read call has returned end-of-stream, every subsequent
Read call (with a non-empty buffer, under any clock value and any
feasible select resolution) returns the same end-of-stream result without
blocking (the result is `some`, i.e. the closed channel is immediately
ready) and leaves the connection state unchanged. -/
theorem eof_is_terminal (c : Conn) (cap now : Nat) (sel : SelectCase)
    (data : List Nat) (c2 : Conn)
    (h : Conn.Read c cap now sel = some (data, some GoError.eof, c2))
    (cap2 now2 : Nat) (sel2 : SelectCase)
    (hcap2 : 1 ≤ cap2) (hsel2 : selectPossible c2.readCh sel2) :
    Conn.Read c2 cap2 now2 sel2 = some ([], some GoError.eof, c2) := by
  obtain ⟨hdata, hrb, hch, hdl, himp, _⟩ :=
    Read_error_inv c cap now sel data GoError.eof c2 h
  obtain ⟨hq, hcl⟩ := himp rfl
  have hch2 : c2.readCh = ⟨[], true⟩ := by
    rw [hch]
    rcases hc : c.readCh with ⟨q0, cl0⟩
    rw [hc] at hq hcl
    simp only at hq hcl
    rw [hq, hcl]
  have hcap0 : cap2 ≠ 0 := by omega
  rcases c2 with ⟨rb2, ch2v, dl2⟩
  simp only at hrb hch2 hsel2
  subst hrb
  subst hch2
  cases dl2 with
  | none =>
    cases sel2 with
    | fromChan => simp [Conn.Read, connReadRecv, receiveFrame, tryRecv, handleFrame, hcap0]
    | fromTimer => exact absurd (hsel2 rfl) (by simp [tryRecv])
  | some d =>
    by_cases hdle : d < now2
    · simp [Conn.Read, connReadRecv, receiveFrame, tryRecv, handleFrame, hcap0, hdle]
    · cases sel2 with
      | fromChan =>
        simp [Conn.Read, connReadRecv, receiveFrame, tryRecv, handleFrame, hcap0, hdle]
      | fromTimer => exact absurd (hsel2 rfl) (by simp [tryRecv])

/-- Witness for C5: a Read that returned end-of-stream on the drained
closed connection is followed by another Read returning the same
result. -/
theorem eof_is_terminal_witness :
    Conn.Read ⟨none, ⟨[], true⟩, none⟩ 3 7 SelectCase.fromChan
      = some ([], some GoError.eof, ⟨none, ⟨[], true⟩, none⟩) :=
  eof_is_terminal ⟨none, ⟨[], true⟩, none⟩ 1 0 SelectCase.fromChan []
    ⟨none, ⟨[], true⟩, none⟩ (by decide) 3 7 SelectCase.fromChan (by decide)
    (fun hx => SelectCase.noConfusion hx)

/-- C6: Write either returns `(len(b), nil)` once the host accepts the
whole payload, or `(0, err)` with a non-nil error; no intermediate byte
count is ever returned (a non-js panic propagates instead of
returning). -/
theorem write_all_or_nothing :
    (∀ b : List Nat, Conn.Write b HostOutcome.ok = Except.ok (b.length, none))
  ∧ (∀ (b : List Nat) (m : String),
      Conn.Write b (HostOutcome.jsException m) = Except.ok (0, some m))
  ∧ (∀ (b : List Nat) (host : HostOutcome) (n : Nat) (e : Option String),
      Conn.Write b host = Except.ok (n, e) →
      (n = b.length ∧ e = none) ∨ (n = 0 ∧ e ≠ none)) := by
  refine ⟨fun b => rfl, fun b m => rfl, fun b host n e h => ?_⟩
  cases host with
  | ok =>
    simp only [Conn.Write, websocketjs.Send, Except.ok.injEq, Prod.mk.injEq] at h
    exact Or.inl ⟨h.1.symm, h.2.symm⟩
  | jsException m =>
    simp only [Conn.Write, websocketjs.Send, Except.ok.injEq, Prod.mk.injEq] at h
    refine Or.inr ⟨h.1.symm, ?_⟩
    rw [← h.2]
    simp
  | otherPanic m => simp [Conn.Write, websocketjs.Send] at h

/-- Witness for C6: a rejected send returns zero bytes and a non-nil
error. -/
theorem write_all_or_nothing_witness :
    ((0 : Nat) = ([3, 4] : List Nat).length ∧ (some "x" : Option String) = none)
  ∨ ((0 : Nat) = 0 ∧ (some "x" : Option String) ≠ none) :=
  write_all_or_nothing.2.2 [3, 4] (HostOutcome.jsException "x") 0 (some "x") rfl

/-- C7: Read with a zero-length destination buffer returns `(0, nil)`
immediately for every connection state, leaving the state untouched — in
particular no receive from the frame queue happens and no blocking is
possible (the result is always `some`). -/
theorem zero_length_read_immediate (c : Conn) (now : Nat) (sel : SelectCase) :
    Conn.Read c 0 now sel = some ([], none, c) := by
  simp [Conn.Read]

/-- C8: if the transport fires close before open, `Dial` returns a nil
connection together with the close-derived error carrying the close
event (code, reason, clean flag), and the transport is in the Closed
state when `Dial` returns. -/
theorem dial_close_before_open (ev : CloseEvent) :
    Dial HostOutcome.ok (ConnectEvent.closeFired ev)
      = Except.ok (none, some (DialError.closeBeforeOpen ev))
    ∧ readyStateAfterFirstEvent (ConnectEvent.closeFired ev) = ReadyState.closed :=
  ⟨rfl, rfl⟩

/-- C9: every host-invoking low-level operation (`New`, `Send`, `Close`)
converts a synchronously raised `*js.Error` into its returned error
value, re-raises any other fault unchanged, and returns no error on
success. -/
theorem host_fault_conversion :
    (∀ m : String,
        websocketjs.New (HostOutcome.jsException m) = Except.ok (none, some m)
      ∧ websocketjs.Send (HostOutcome.jsException m) = Except.ok (some m)
      ∧ websocketjs.Close (HostOutcome.jsException m) = Except.ok (some m))
  ∧ (∀ m : String,
        websocketjs.New (HostOutcome.otherPanic m) = Except.error m
      ∧ websocketjs.Send (HostOutcome.otherPanic m) = Except.error m
      ∧ websocketjs.Close (HostOutcome.otherPanic m) = Except.error m)
  ∧ websocketjs.New HostOutcome.ok = Except.ok (some (), none)
  ∧ websocketjs.Send HostOutcome.ok = Except.ok none
  ∧ websocketjs.Close HostOutcome.ok = Except.ok none :=
  ⟨fun _ => ⟨rfl, rfl, rfl⟩, fun _ => ⟨rfl, rfl, rfl⟩, rfl, rfl, rfl⟩

/-- C10: starting from `*isClosed = 0` (as set by `Dial`), any sequence
of at least one `onClose` invocation — the linearization of any
interleaving of `conn.Close` calls and host close events, the CAS being
atomic — runs the teardown block (channel close and listener removal)
exactly once and leaves `isClosed = 1`, so the double-close branch is
unreachable. -/
theorem close_teardown_exactly_once (k : Nat) (h : 1 ≤ k) :
    runCloses k 0 = (1, 1) := by
  obtain ⟨j, rfl⟩ : ∃ j, k = j + 1 := ⟨k - 1, by omega⟩
  have haux : ∀ n, runCloses n 1 = (1, 0) := by
    intro n
    induction n with
    | zero => rfl
    | succ n2 ih => simp [runCloses, onCloseStep, ih]
  simp [runCloses, onCloseStep, haux]

/-- Witness for C10: three racing close invocations tear down once. -/
theorem close_teardown_exactly_once_witness : runCloses 3 0 = (1, 1) :=
  close_teardown_exactly_once 3 (by decide)

end GopherjsWebsocket
